import Mathlib

/-!
Shallow embedding of the core of the pitaya-notes game-server framework:
the message route dictionary (`conn/message`), the handler dispatch
pipeline (`service/util.go`, `component/service.go`) and the gRPC rpc
client (`cluster/grpc_rpc_client.go`), together with theorems checking
the specification's claims about them.
-/

namespace Pitaya

/-- First-match association-list lookup; models reading a Go map
(duplicate keys are never inserted by the code below, so first-match
lookup agrees with Go map semantics). -/
def assocFind {α β : Type} [DecidableEq α] : List (α × β) → α → Option β
  | [], _ => none
  | (a, b) :: t, k => if a = k then some b else assocFind t k

/-- `strings.TrimSpace` on the string's characters: drop whitespace from
both ends.  (Go trims the full Unicode space class; this uses
`Char.isWhitespace`, which covers space, tab, CR and LF — the dictionary
claims do not depend on the wider class.) -/
def trimSpace (s : String) : String :=
  ⟨((s.data.dropWhile Char.isWhitespace).reverse.dropWhile Char.isWhitespace).reverse⟩

/-! ## Route dictionary (`conn/message`, `SetDictionary`)

The Go package keeps two global maps, `routes : map[string]uint16` and
`codes : map[uint16]string`.  `SetDictionary` iterates over the supplied
map, trims each route, rejects an entry whose trimmed route or code is
already present, and otherwise inserts the pair into both maps as it
goes.  Codes are `uint16` values; nothing arithmetic is done with them,
so they are carried as `Nat` here.  The Go map argument is modelled as a
list of pairs (one iteration order of the map). -/

structure DictState where
  routes : List (String × Nat)
  codes : List (Nat × String)
deriving DecidableEq, Repr

/-- The `fmt.Errorf("duplicated route(route: %s, code: %d)", r, code)`
error value. -/
inductive DictErr where
  | duplicated (route : String) (code : Nat)
deriving DecidableEq, Repr

/-- The loop body of `SetDictionary`: for each entry, trim the route,
check both maps for duplicates (returning the error, and the state as
mutated so far, on a hit), else insert into both maps and continue. -/
def setDictLoop (st : DictState) : List (String × Nat) → DictState × Option DictErr
  | [] => (st, none)
  | (route, code) :: rest =>
    match assocFind st.routes (trimSpace route) with
    | some _ => (st, some (.duplicated (trimSpace route) code))
    | none =>
      match assocFind st.codes code with
      | some _ => (st, some (.duplicated (trimSpace route) code))
      | none =>
        setDictLoop
          ⟨st.routes ++ [(trimSpace route, code)],
           st.codes ++ [(code, trimSpace route)]⟩ rest

/-- `message.SetDictionary`: a nil map is accepted and is a no-op;
otherwise the entries are installed one by one with duplication
checks against the live maps. -/
def SetDictionary (st : DictState) : Option (List (String × Nat)) → DictState × Option DictErr
  | none => (st, none)
  | some dict => setDictLoop st dict

/-! ## Message types and dispatch pipeline

`message.Type` is a byte with values Request = 0, Notify = 1,
Response = 2, Push = 3; only those four values are ever constructed, so
it is carried as an inductive here. -/

inductive MessageType where
  | request
  | notify
  | response
  | push
deriving DecidableEq, Repr

/-- Handler results and arguments are Go `interface{}` values; the
dispatch code only distinguishes a nil interface, a `[]byte`, and some
other (serializable) value. -/
inductive Val where
  | nilV
  | raw (bytes : List UInt8)
  | obj (payload : String)
deriving DecidableEq, Repr

/-- Errors flowing through the dispatch pipeline.  `errRequestOnNotify`
and `errNotifyOnRequest` are the sentinel errors of the `constants`
package; `handlerNotFound` is the `fmt.Errorf` of `getHandler`;
`errInvalidMsg` is `service.errInvalidMsg`; `user` stands for an error
produced by a hook, a handler, a serializer, or a trapped panic. -/
inductive CoreErr where
  | errRequestOnNotify
  | errNotifyOnRequest
  | handlerNotFound (route : String)
  | errInvalidMsg
  | user (msg : String)
deriving DecidableEq, Repr

/-- Modelled from the spec: the string error codes of the `errors`
package (not under src/); §7 names them `NotFound`, `BadRequest`,
`Internal` and `Unknown`. -/
def errNotFoundCode : String := "NotFound"

/-- Modelled from the spec: see `errNotFoundCode`. -/
def errBadRequestCode : String := "BadRequest"

/-- Modelled from the spec: see `errNotFoundCode`. -/
def errInternalCode : String := "Internal"

/-- Modelled from the spec: see `errNotFoundCode`. -/
def errUnknownCode : String := "Unknown"

/-- An error as returned by `processHandlerMessage`: either wrapped by
`e.NewError(err, code)` with one of the taxonomy codes, or returned
unchanged (`plain`). -/
inductive DispatchErr where
  | wrapped (e : CoreErr) (code : String)
  | plain (e : CoreErr)
deriving DecidableEq, Repr

/-- Observable effects of one dispatch: the `logger.Warnf` emitted for a
non-fatal message-type mismatch, and the reflective invocation of the
handler method with its (pipeline-processed) argument. -/
inductive Event where
  | warnInvalidMsgType (e : CoreErr)
  | handlerCall (arg : Val)
deriving DecidableEq, Repr

/-- The literal bytes `"ack"` written by the remote-Notify special case
(`resp = []byte("ack")`). -/
def ackBytes : List UInt8 := [97, 99, 107]

/-- The externally supplied serializer (`serialize.Serializer`), plus
the error-payload encoding used by `serializeReturn`.  All three
operations are opaque collaborators of the dispatch code. -/
structure Serializer where
  marshal : Val → Except CoreErr (List UInt8)
  unmarshal : List UInt8 → Except CoreErr Val
  errorPayload : CoreErr → Except CoreErr (List UInt8)

/-- `component.Handler`: the declared message type, the raw-argument
flag, whether the method declares a payload argument (`Type != nil`),
and the method itself.  The reflective invocation `util.Pcall` (not
under src/) returns the method's result and error, with panics trapped
into an error; it is carried here as a function from the argument to a
(result, error) pair. -/
structure Handler where
  messageType : MessageType
  isRawArg : Bool
  hasArgType : Bool
  method : Val → Val × Option CoreErr

/-- `Handler.ValidateMessageType` (component/service.go): on a mismatch,
an arriving Request yields `ErrRequestOnNotify` with `exitOnError=true`;
an arriving Notify yields `ErrNotifyOnRequest` (with `exitOnError`
left false); any other arriving type yields no error. -/
def Handler.ValidateMessageType (h : Handler) (msgType : MessageType) :
    Bool × Option CoreErr :=
  if h.messageType ≠ msgType then
    match msgType with
    | .request => (true, some .errRequestOnNotify)
    | .notify => (false, some .errNotifyOnRequest)
    | _ => (false, none)
  else (false, none)

/-- The ambient state read by `processHandlerMessage`: the package-level
`handlers` map of the service package (keyed by the route's
`Short()` string) and the process-wide pre/post hook chains of the
`pipeline` package. -/
structure DispatchState where
  handlers : String → Option Handler
  beforeHooks : List (Val → Val × Option CoreErr)
  afterHooks : List (Val → Option CoreErr → Val × Option CoreErr)

/-- `service.getHandler`: look the route up in the handlers map. -/
def getHandler (handlers : String → Option Handler) (rt : String) :
    Except CoreErr Handler :=
  match handlers rt with
  | some h => .ok h
  | none => .error (.handlerNotFound rt)

/-- The `msgTypeIface interface{}` argument of `processHandlerMessage`:
either an actual `message.Type` or a value of some other type (the
`protos.MsgType` branch goes through `util.ConvertProtoToMessageType`,
which is not under src/, and is subsumed by `msg` here). -/
inductive MsgTypeIface where
  | msg (t : MessageType)
  | invalid
deriving DecidableEq, Repr

/-- `service.getMsgType`: accept a `message.Type`, otherwise fail with
`errInvalidMsg`. -/
def getMsgType : MsgTypeIface → Except CoreErr MessageType
  | .msg t => .ok t
  | .invalid => .error .errInvalidMsg

/-- `service.unmarshalHandlerArg`: raw handlers get the payload bytes
verbatim; typed handlers get the deserialized value; a handler with no
declared argument type gets the nil interface. -/
def unmarshalHandlerArg (h : Handler) (ser : Serializer) (payload : List UInt8) :
    Except CoreErr Val :=
  if h.isRawArg then .ok (.raw payload)
  else if h.hasArgType then ser.unmarshal payload
  else .ok .nilV

/-- `service.executeBeforePipeline`: run the pre-hooks in order,
stopping at (and returning) the first error. -/
def executeBeforePipeline (hooks : List (Val → Val × Option CoreErr)) (data : Val) :
    Val × Option CoreErr :=
  match hooks with
  | [] => (data, none)
  | h :: rest =>
    match h data with
    | (res, some err) => (res, some err)
    | (res, none) => executeBeforePipeline rest res

/-- `service.executeAfterPipeline`: run every post-hook in order, each
receiving the current (result, error) pair and producing the next. -/
def executeAfterPipeline
    (hooks : List (Val → Option CoreErr → Val × Option CoreErr))
    (res : Val) (err : Option CoreErr) : Val × Option CoreErr :=
  match hooks with
  | [] => (res, err)
  | h :: rest =>
    match h res err with
    | (r, e) => executeAfterPipeline rest r e

/-- Modelled from the spec: `util.SerializeOrRaw` (not under src/) —
§4.3 step 3/8: raw byte results pass through verbatim, anything else
goes through the externally supplied serializer. -/
def SerializeOrRaw (ser : Serializer) (ret : Val) : Except CoreErr (List UInt8) :=
  match ret with
  | .raw bs => .ok bs
  | v => ser.marshal v

/-- `service.serializeReturn`: serialize the result; on failure, fall
back to the serializer's error payload (`util.GetErrorPayload`, not
under src/, modelled as the serializer's error-encoding operation per
§4.3 step 8); a double failure is returned to the caller. -/
def serializeReturn (ser : Serializer) (ret : Val) : Except CoreErr (List UInt8) :=
  match SerializeOrRaw ser ret with
  | .ok res => .ok res
  | .error err => ser.errorPayload err

/-- The `logger.Warnf("invalid message type, ...")` trace emitted when
validation reports a non-fatal error. -/
def warnEvents : Option CoreErr → List Event
  | some e => [.warnInvalidMsgType e]
  | none => []

/-- `service.processHandlerMessage`: resolve the handler, obtain the
message type, validate it (aborting only when `exitOnError` is set,
logging otherwise), deserialize the argument, run pre-hooks (first
error returned unchanged), invoke the handler, overwrite the response
with the literal bytes `ack` for a remote-origin Notify, run post-hooks,
and serialize.  Context/session/tracing threading is effectful plumbing
and appears here only as the `Event` trace (the warn log and the
handler invocation). -/
def processHandlerMessage (st : DispatchState) (rt : String) (ser : Serializer)
    (data : List UInt8) (msgTypeIface : MsgTypeIface) (remote : Bool) :
    Except DispatchErr (List UInt8) × List Event :=
  match getHandler st.handlers rt with
  | .error e => (.error (.wrapped e errNotFoundCode), [])
  | .ok h =>
    match getMsgType msgTypeIface with
    | .error e => (.error (.wrapped e errInternalCode), [])
    | .ok msgType =>
      match h.ValidateMessageType msgType with
      | (true, some e) => (.error (.wrapped e errBadRequestCode), [])
      | (_, verr) =>
        match unmarshalHandlerArg h ser data with
        | .error e => (.error (.wrapped e errBadRequestCode), warnEvents verr)
        | .ok arg =>
          match executeBeforePipeline st.beforeHooks arg with
          | (_, some e) => (.error (.plain e), warnEvents verr)
          | (arg2, none) =>
            match
              executeAfterPipeline st.afterHooks
                (if remote ∧ msgType = .notify then Val.raw ackBytes
                 else (h.method arg2).1)
                (h.method arg2).2
            with
            | (_, some e) =>
              (.error (.plain e), warnEvents verr ++ [.handlerCall arg2])
            | (resp2, none) =>
              match serializeReturn ser resp2 with
              | .error e =>
                (.error (.plain e), warnEvents verr ++ [.handlerCall arg2])
              | .ok ret => (.ok ret, warnEvents verr ++ [.handlerCall arg2])

/-- Replace the handler registered under one route, leaving everything
else in the dispatch state unchanged. -/
def withHandler (st : DispatchState) (rt : String) (h : Handler) : DispatchState :=
  { st with handlers := fun r => if r = rt then some h else st.handlers r }

/-! ## gRPC rpc client (`cluster/grpc_rpc_client.go`)

The network RPC stubs (`cli.Call`, `cli.KickUser`, `cli.PushToUser`,
`cli.SessionBindRemote`) and `connect` perform I/O; each `grpcClient` is
modelled with the recorded outcome of those operations, and the methods
below reproduce the lazy-connect control flow around them. -/

/-- Errors produced or forwarded by the gRPC client: the sentinel
constants of the `constants` package, the typed `pitErrors.Error`
(code, message, metadata) built by `Call`, and opaque transport or
binding-storage errors. -/
inductive GErr where
  | errNoConnectionToServer
  | errNoBindingStorageModule
  | errNotImplemented
  | typed (code : String) (msg : String) (metadata : List (String × String))
  | other (msg : String)
deriving DecidableEq, Repr

/-- The `Error` record embedded in a `protos.Response`. -/
structure RespError where
  code : String
  msg : String
  metadata : List (String × String)
deriving DecidableEq, Repr

/-- `protos.Response`: payload bytes plus an optional embedded error. -/
structure PResponse where
  data : List UInt8
  error : Option RespError
deriving DecidableEq, Repr

/-- `grpcClient`: one lazily-connected peer transport.  `connectErr` is
the outcome `connect()` would produce when attempted; the four RPC
outcome fields record what the corresponding network stub returns once
the transport is usable. -/
structure grpcClient where
  connected : Bool
  connectErr : Option GErr
  callRes : Except GErr PResponse
  kickUserErr : Option GErr
  pushToUserErr : Option GErr
  sessionBindErr : Option GErr
deriving Repr

/-- `grpcClient.call`: lazily connect, then issue the Call RPC. -/
def grpcClient.call (gc : grpcClient) : Except GErr PResponse :=
  if gc.connected then gc.callRes
  else
    match gc.connectErr with
    | some e => .error e
    | none => gc.callRes

/-- `grpcClient.sendKick`: lazily connect, then issue the KickUser RPC. -/
def grpcClient.sendKick (gc : grpcClient) : Option GErr :=
  if gc.connected then gc.kickUserErr
  else
    match gc.connectErr with
    | some e => some e
    | none => gc.kickUserErr

/-- `grpcClient.pushToUser`: lazily connect, then issue the PushToUser
RPC. -/
def grpcClient.pushToUser (gc : grpcClient) : Option GErr :=
  if gc.connected then gc.pushToUserErr
  else
    match gc.connectErr with
    | some e => some e
    | none => gc.pushToUserErr

/-- `grpcClient.sessionBindRemote`: lazily connect, then issue the
SessionBindRemote RPC. -/
def grpcClient.sessionBindRemote (gc : grpcClient) : Option GErr :=
  if gc.connected then gc.sessionBindErr
  else
    match gc.connectErr with
    | some e => some e
    | none => gc.sessionBindErr

/-- `interfaces.BindingStorage.GetUserFrontendID`: maps (uid,
serverType) to a frontend server id together with an optional error
(Go returns both values). -/
def BindingStorage : Type := String → String → String × Option GErr

/-- `GRPCClient`: the binding-storage module (nil-able), the concurrent
`serverId → grpcClient` map (modelled as an association-list snapshot),
and the local server's id and type (the fields of `gs.server` the
claims touch). -/
structure GRPCClient where
  bindingStorage : Option BindingStorage
  clientMap : List (String × grpcClient)
  serverID : String
  serverType : String

/-- `GRPCClient.Call`: look up the peer client (absent ⇒
`ErrNoConnectionToServer`), build the request (`buildRequest` lives in
cluster/util.go, not under src/; its outcome is the `buildReqErr`
parameter), issue the RPC, and on a response embedding an `Error`
replace an empty code with the Unknown code and return a typed error
carrying the response error's code, message and metadata.  Tracing and
metrics are effect-only and elided. -/
def GRPCClient.Call (gs : GRPCClient) (serverID : String)
    (buildReqErr : Option GErr) : Except GErr PResponse :=
  match assocFind gs.clientMap serverID with
  | none => .error .errNoConnectionToServer
  | some c =>
    match buildReqErr with
    | some e => .error e
    | none =>
      match c.call with
      | .error e => .error e
      | .ok res =>
        match res.error with
        | some re =>
          .error (.typed (if re.code = "" then errUnknownCode else re.code)
            re.msg re.metadata)
        | none => .ok res

/-- `GRPCClient.Send`: not implemented on this transport. -/
def GRPCClient.Send (_ : GRPCClient) (_ : String) (_ : List UInt8) : Option GErr :=
  some .errNotImplemented

/-- `GRPCClient.BroadcastSessionBind`: without a binding-storage module
fail; otherwise look the user's frontend id up, discarding the lookup
error; when the id is non-empty and a peer client exists, forward
the bind message and return that outcome; in every other case return
nil. -/
def GRPCClient.BroadcastSessionBind (gs : GRPCClient) (uid : String) : Option GErr :=
  match gs.bindingStorage with
  | none => some .errNoBindingStorageModule
  | some bs =>
    match bs uid gs.serverType with
    | (fid, _) =>
      if fid ≠ "" then
        match assocFind gs.clientMap fid with
        | some c => c.sessionBindRemote
        | none => none
      else none

/-- `GRPCClient.SendKick`: without a binding-storage module fail; a
failing frontend-id lookup returns the lookup error; a missing peer
client returns `ErrNoConnectionToServer`; otherwise forward the kick. -/
def GRPCClient.SendKick (gs : GRPCClient) (userID : String) (serverType : String) :
    Option GErr :=
  match gs.bindingStorage with
  | none => some .errNoBindingStorageModule
  | some bs =>
    match bs userID serverType with
    | (_, some e) => some e
    | (svID, none) =>
      match assocFind gs.clientMap svID with
      | some c => c.sendKick
      | none => some .errNoConnectionToServer

/-- `GRPCClient.SendPush`: use the explicitly supplied frontend id when
non-empty; otherwise resolve it through the binding storage (absent
module ⇒ `ErrNoBindingStorageModule`, failing lookup ⇒ that error);
then forward via the peer client, or fail with
`ErrNoConnectionToServer` when none matches. -/
def GRPCClient.SendPush (gs : GRPCClient) (userID : String)
    (frontendSvID : String) (frontendSvType : String) : Option GErr :=
  match
    (if frontendSvID ≠ "" then Except.ok frontendSvID
     else
       match gs.bindingStorage with
       | none => Except.error GErr.errNoBindingStorageModule
       | some bs =>
         match bs userID frontendSvType with
         | (_, some e) => Except.error e
         | (svID, none) => Except.ok svID : Except GErr String)
  with
  | .error e => some e
  | .ok svID =>
    match assocFind gs.clientMap svID with
    | some c => c.pushToUser
    | none => some .errNoConnectionToServer

/-! ## Concrete fixtures

Small concrete states used to instantiate the theorems below: a
pass-through serializer, a `Room.Join`-style Request handler, a
`Room.Tick`-style Notify handler, and registries and hook chains
around them. -/

def idSerializer : Serializer :=
  ⟨fun _ => Except.ok [], fun bs => Except.ok (Val.raw bs),
   fun _ => Except.error (.user "errenc")⟩

def joinHandler : Handler :=
  ⟨.request, true, true, fun a => (a, none)⟩

def tickHandler : Handler :=
  ⟨.notify, true, true, fun _ => (.nilV, none)⟩

def joinState : DispatchState :=
  ⟨fun r => if r = "Room.Join" then some joinHandler else none, [], []⟩

def tickState : DispatchState :=
  ⟨fun r => if r = "Room.Tick" then some tickHandler else none, [], []⟩

/-- A failing pre-hook. -/
def failHook : Val → Val × Option CoreErr := fun v => (v, some (.user "h1"))

/-- A pre-hook that must never run. -/
def neverHook : Val → Val × Option CoreErr := fun v => (v, some (.user "h2"))

/-- A post-hook that keeps the result and reports its own error. -/
def overrideHook : Val → Option CoreErr → Val × Option CoreErr :=
  fun r _ => (r, some (.user "posterr"))

def failHookState : DispatchState :=
  ⟨fun r => if r = "Room.Join" then some joinHandler else none, [failHook], []⟩

def overrideHookState : DispatchState :=
  ⟨fun r => if r = "Room.Join" then some joinHandler else none, [], [overrideHook]⟩

/-- A Request handler that echoes its argument and reports an error. -/
def errHandler : Handler :=
  ⟨.request, true, true, fun a => (a, some (.user "herr"))⟩

def errHandlerState : DispatchState :=
  ⟨fun r => if r = "Room.Err" then some errHandler else none, [], [overrideHook]⟩

/-- A binding storage whose lookup fails. -/
def failingBindingStorage : BindingStorage := fun _ _ => ("", some (.other "lookup failed"))

/-- A binding storage resolving every user to frontend `"B"`. -/
def bindingStorageToB : BindingStorage := fun _ _ => ("B", none)

/-- A connected peer client with benign RPC outcomes. -/
def okClient : grpcClient :=
  ⟨true, none, .ok ⟨[], none⟩, none, none, none⟩

/-! ## Association-list lemmas -/

theorem assocFind_append_some {α β : Type} [DecidableEq α]
    (l₁ l₂ : List (α × β)) (k : α) (v : β)
    (h : assocFind l₁ k = some v) : assocFind (l₁ ++ l₂) k = some v := by
  induction l₁ with
  | nil => simp [assocFind] at h
  | cons hd t ih =>
    obtain ⟨a, b⟩ := hd
    simp only [assocFind, List.cons_append] at h ⊢
    by_cases hk : a = k
    · simpa [hk] using h
    · simp only [hk, if_false] at h ⊢
      exact ih h

theorem assocFind_append_singleton_self {α β : Type} [DecidableEq α]
    (l : List (α × β)) (k : α) (v : β) :
    (assocFind (l ++ [(k, v)]) k).isSome = true := by
  induction l with
  | nil => simp [assocFind]
  | cons hd t ih =>
    obtain ⟨a, b⟩ := hd
    simp only [assocFind, List.cons_append]
    by_cases hk : a = k
    · simp [hk]
    · simpa [hk] using ih

/-! ## Dictionary lemmas -/

/-- The dictionary loop only ever appends: the maps after the loop are
the maps before it plus a suffix of new pairs. -/
theorem setDictLoop_extends (l : List (String × Nat)) :
    ∀ st : DictState, ∃ t u,
      ((setDictLoop st l).1).routes = st.routes ++ t ∧
      ((setDictLoop st l).1).codes = st.codes ++ u := by
  induction l with
  | nil => intro st; exact ⟨[], [], by simp [setDictLoop], by simp [setDictLoop]⟩
  | cons hd rest ih =>
    intro st
    obtain ⟨route, code⟩ := hd
    cases hr : assocFind st.routes (trimSpace route) with
    | some v => exact ⟨[], [], by simp [setDictLoop, hr], by simp [setDictLoop, hr]⟩
    | none =>
      cases hc : assocFind st.codes code with
      | some v => exact ⟨[], [], by simp [setDictLoop, hr, hc], by simp [setDictLoop, hr, hc]⟩
      | none =>
        obtain ⟨t, u, ht, hu⟩ :=
          ih ⟨st.routes ++ [(trimSpace route, code)], st.codes ++ [(code, trimSpace route)]⟩
        refine ⟨(trimSpace route, code) :: t, (code, trimSpace route) :: u, ?_, ?_⟩
        · simpa [setDictLoop, hr, hc] using ht
        · simpa [setDictLoop, hr, hc] using hu

/-- If some entry of the list collides with the state the loop starts
from, the loop reports an error. -/
theorem setDictLoop_err_of_mem (p : String × Nat) (l : List (String × Nat)) :
    ∀ st : DictState, p ∈ l →
      ((assocFind st.routes (trimSpace p.1)).isSome = true ∨
        (assocFind st.codes p.2).isSome = true) →
      ((setDictLoop st l).2).isSome = true := by
  induction l with
  | nil => intro st hp _; cases hp
  | cons hd rest ih =>
    intro st hp hcol
    obtain ⟨route, code⟩ := hd
    cases hr : assocFind st.routes (trimSpace route) with
    | some v => simp [setDictLoop, hr]
    | none =>
      cases hc : assocFind st.codes code with
      | some v => simp [setDictLoop, hr, hc]
      | none =>
        rcases List.mem_cons.mp hp with heq | hmem
        · subst heq
          rcases hcol with h | h
          · rw [hr] at h; simp at h
          · rw [hc] at h; simp at h
        · have hstep :
              (setDictLoop st ((route, code) :: rest)).2 =
                (setDictLoop
                  ⟨st.routes ++ [(trimSpace route, code)],
                   st.codes ++ [(code, trimSpace route)]⟩ rest).2 := by
            simp [setDictLoop, hr, hc]
          rw [hstep]
          apply ih _ hmem
          rcases hcol with h | h
          · left
            obtain ⟨v, hv⟩ := Option.isSome_iff_exists.mp h
            simp [assocFind_append_some st.routes _ _ _ hv]
          · right
            obtain ⟨v, hv⟩ := Option.isSome_iff_exists.mp h
            simp [assocFind_append_some st.codes _ _ _ hv]

/-- If two entries of the list collide with each other (equal trimmed
routes or equal codes), the loop reports an error. -/
theorem setDictLoop_err_of_pair (p q : String × Nat) (l₂ l₃ : List (String × Nat))
    (hpq : trimSpace p.1 = trimSpace q.1 ∨ p.2 = q.2) :
    ∀ (l₁ : List (String × Nat)) (st : DictState),
      ((setDictLoop st (l₁ ++ p :: l₂ ++ q :: l₃)).2).isSome = true := by
  intro l₁
  induction l₁ with
  | nil =>
    intro st
    obtain ⟨pr, pc⟩ := p
    simp only [List.nil_append, List.cons_append]
    cases hr : assocFind st.routes (trimSpace pr) with
    | some v => simp [setDictLoop, hr]
    | none =>
      cases hc : assocFind st.codes pc with
      | some v => simp [setDictLoop, hr, hc]
      | none =>
        have hstep :
            (setDictLoop st ((pr, pc) :: (l₂ ++ q :: l₃))).2 =
              (setDictLoop
                ⟨st.routes ++ [(trimSpace pr, pc)],
                 st.codes ++ [(pc, trimSpace pr)]⟩ (l₂ ++ q :: l₃)).2 := by
          simp [setDictLoop, hr, hc]
        rw [hstep]
        apply setDictLoop_err_of_mem q _ _ (by simp)
        rcases hpq with h | h
        · left
          rw [← h]
          exact assocFind_append_singleton_self st.routes (trimSpace pr) pc
        · right
          rw [← h]
          exact assocFind_append_singleton_self st.codes pc (trimSpace pr)
  | cons hd t ih =>
    intro st
    obtain ⟨route, code⟩ := hd
    simp only [List.cons_append]
    cases hr : assocFind st.routes (trimSpace route) with
    | some v => simp [setDictLoop, hr]
    | none =>
      cases hc : assocFind st.codes code with
      | some v => simp [setDictLoop, hr, hc]
      | none =>
        have hstep :
            (setDictLoop st ((route, code) :: (t ++ p :: l₂ ++ q :: l₃))).2 =
              (setDictLoop
                ⟨st.routes ++ [(trimSpace route, code)],
                 st.codes ++ [(code, trimSpace route)]⟩ (t ++ p :: l₂ ++ q :: l₃)).2 := by
          simp [setDictLoop, hr, hc]
        rw [hstep]
        exact ih _

/-! ## Claim C1 -/

/-- C1 (amended): if the installed map contains an entry whose trimmed
route or code is already installed, or two entries that collide with
each other, `SetDictionary` returns a duplication error; previously
installed pairs are never removed or overwritten by any call — but the
call is not rolled back: entries processed before the duplicate remain
installed (see the counterexample). -/
theorem setDictionary_duplicate_behavior (st : DictState) (l : List (String × Nat)) :
    ((∃ p ∈ l, (assocFind st.routes (trimSpace p.1)).isSome = true ∨
        (assocFind st.codes p.2).isSome = true) →
      ((SetDictionary st (some l)).2).isSome = true) ∧
    ((∃ l₁ p l₂ q l₃, l = l₁ ++ p :: l₂ ++ q :: l₃ ∧
        (trimSpace p.1 = trimSpace q.1 ∨ p.2 = q.2)) →
      ((SetDictionary st (some l)).2).isSome = true) ∧
    (∀ r c, assocFind st.routes r = some c →
      assocFind ((SetDictionary st (some l)).1).routes r = some c) ∧
    (∀ c r, assocFind st.codes c = some r →
      assocFind ((SetDictionary st (some l)).1).codes c = some r) := by
  refine ⟨?_, ?_, ?_, ?_⟩
  · rintro ⟨p, hp, hcol⟩
    exact setDictLoop_err_of_mem p l st hp hcol
  · rintro ⟨l₁, p, l₂, q, l₃, rfl, hpq⟩
    exact setDictLoop_err_of_pair p q l₂ l₃ hpq l₁ st
  · intro r c h
    obtain ⟨t, u, ht, _⟩ := setDictLoop_extends l st
    show assocFind ((setDictLoop st l).1).routes r = some c
    rw [ht]
    exact assocFind_append_some _ _ _ _ h
  · intro c r h
    obtain ⟨t, u, _, hu⟩ := setDictLoop_extends l st
    show assocFind ((setDictLoop st l).1).codes c = some r
    rw [hu]
    exact assocFind_append_some _ _ _ _ h

/-- Witness for C1: a concrete duplicate is rejected, and a concrete
pre-installed pair survives a failing call. -/
theorem setDictionary_duplicate_behavior_witness :
    ((SetDictionary ⟨[("a", 1)], [(1, "a")]⟩ (some [("a", 3)])).2).isSome = true ∧
    assocFind
      ((SetDictionary ⟨[("a", 1)], [(1, "a")]⟩ (some [("b", 2), ("a", 3)])).1).routes
      "a" = some 1 := by
  constructor
  · exact (setDictionary_duplicate_behavior ⟨[("a", 1)], [(1, "a")]⟩ [("a", 3)]).1
      ⟨("a", 3), by decide, by decide⟩
  · exact (setDictionary_duplicate_behavior ⟨[("a", 1)], [(1, "a")]⟩
      [("b", 2), ("a", 3)]).2.2.1 "a" 1 (by decide)

/-- Counterexample for C1 as stated: installing `{"b"↦2, "a"↦3}` over a
dictionary already holding `"a"↦1` returns the duplication error, yet
the route map after the call is not the previous one — the entry
processed before the duplicate was installed. -/
theorem setDictionary_not_rolled_back_cex :
    (SetDictionary ⟨[("a", 1)], [(1, "a")]⟩ (some [("b", 2), ("a", 3)])).2
        = some (.duplicated "a" 3) ∧
    (SetDictionary ⟨[("a", 1)], [(1, "a")]⟩ (some [("b", 2), ("a", 3)])).1
        ≠ ⟨[("a", 1)], [(1, "a")]⟩ := by
  constructor
  · decide
  · decide

/-! ## Dispatch pipeline lemmas -/

/-- Splitting a pre-hook chain: the second half runs only if the first
half succeeded. -/
theorem executeBeforePipeline_append
    (l₁ l₂ : List (Val → Val × Option CoreErr)) (data : Val) :
    executeBeforePipeline (l₁ ++ l₂) data =
      match executeBeforePipeline l₁ data with
      | (res, none) => executeBeforePipeline l₂ res
      | (res, some e) => (res, some e) := by
  induction l₁ generalizing data with
  | nil => simp [executeBeforePipeline]
  | cons h t ih =>
    simp only [List.cons_append, executeBeforePipeline]
    rcases h data with ⟨res, oerr⟩
    cases oerr with
    | none => exact ih res
    | some e => rfl

/-- A dispatch whose validation reports a fatal mismatch aborts with the
wrapped error and produces no events. -/
theorem processHandlerMessage_abort
    (st : DispatchState) (rt : String) (ser : Serializer) (data : List UInt8)
    (mt : MessageType) (remote : Bool) (h : Handler) (e : CoreErr)
    (hl : st.handlers rt = some h)
    (hv : h.ValidateMessageType mt = (true, some e)) :
    processHandlerMessage st rt ser data (.msg mt) remote =
      (.error (.wrapped e errBadRequestCode), []) := by
  simp [processHandlerMessage, getHandler, getMsgType, hl, hv]

/-- The event trace of a dispatch that reaches the handler: the optional
mismatch warning followed by the handler invocation. -/
theorem processHandlerMessage_events_continue
    (st : DispatchState) (rt : String) (ser : Serializer) (data : List UInt8)
    (mt : MessageType) (remote : Bool) (h : Handler) (verr : Option CoreErr)
    (arg arg2 : Val)
    (hl : st.handlers rt = some h)
    (hv : h.ValidateMessageType mt = (false, verr))
    (hu : unmarshalHandlerArg h ser data = .ok arg)
    (hb : executeBeforePipeline st.beforeHooks arg = (arg2, none)) :
    (processHandlerMessage st rt ser data (.msg mt) remote).2 =
      warnEvents verr ++ [.handlerCall arg2] := by
  simp only [processHandlerMessage, getHandler, getMsgType, hl, hv, hu, hb]
  rcases hafter :
    executeAfterPipeline st.afterHooks
      (if remote ∧ mt = .notify then Val.raw ackBytes else (h.method arg2).1)
      (h.method arg2).2 with ⟨resp2, oerr⟩
  cases oerr with
  | some e => simp [hafter]
  | none =>
    cases hser : serializeReturn ser resp2 with
    | error e => simp [hafter, hser]
    | ok ret => simp [hafter, hser]

/-- The event trace of a dispatch stopped by a failing pre-hook: only
the optional mismatch warning; the dispatch returns the hook's error
unchanged. -/
theorem processHandlerMessage_beforeErr
    (st : DispatchState) (rt : String) (ser : Serializer) (data : List UInt8)
    (mt : MessageType) (remote : Bool) (h : Handler) (verr : Option CoreErr)
    (arg v : Val) (e : CoreErr)
    (hl : st.handlers rt = some h)
    (hv : h.ValidateMessageType mt = (false, verr))
    (hu : unmarshalHandlerArg h ser data = .ok arg)
    (hb : executeBeforePipeline st.beforeHooks arg = (v, some e)) :
    processHandlerMessage st rt ser data (.msg mt) remote =
      (.error (.plain e), warnEvents verr) := by
  simp [processHandlerMessage, getHandler, getMsgType, hl, hv, hu, hb]

/-! ## Claim C2 -/

/-- C2: a Request arriving at a Notify handler validates to
`ErrRequestOnNotify` with `exitOnError=true` and the dispatch aborts —
no events, so the handler is never invoked; a Notify arriving at a
Request handler validates to `ErrNotifyOnRequest` with
`exitOnError=false`, only a warning is logged, and (whenever argument
decoding and the pre-hooks succeed) dispatch continues into the
handler. -/
theorem validateMessageType_mismatch_policy
    (st : DispatchState) (rt : String) (ser : Serializer) (data : List UInt8)
    (remote : Bool) (h : Handler)
    (hl : st.handlers rt = some h) :
    (h.messageType = .notify →
      h.ValidateMessageType .request = (true, some .errRequestOnNotify) ∧
      processHandlerMessage st rt ser data (.msg .request) remote =
        (.error (.wrapped .errRequestOnNotify errBadRequestCode), [])) ∧
    (h.messageType = .request →
      h.ValidateMessageType .notify = (false, some .errNotifyOnRequest) ∧
      (∀ arg arg2, unmarshalHandlerArg h ser data = .ok arg →
        executeBeforePipeline st.beforeHooks arg = (arg2, none) →
        (processHandlerMessage st rt ser data (.msg .notify) remote).2 =
          [.warnInvalidMsgType .errNotifyOnRequest, .handlerCall arg2])) := by
  constructor
  · intro hmt
    have hv : h.ValidateMessageType .request = (true, some .errRequestOnNotify) := by
      simp [Handler.ValidateMessageType, hmt]
    exact ⟨hv, processHandlerMessage_abort st rt ser data .request remote h _ hl hv⟩
  · intro hmt
    have hv : h.ValidateMessageType .notify = (false, some .errNotifyOnRequest) := by
      simp [Handler.ValidateMessageType, hmt]
    refine ⟨hv, ?_⟩
    intro arg arg2 hu hb
    have := processHandlerMessage_events_continue st rt ser data .notify remote h
      (some .errNotifyOnRequest) arg arg2 hl hv hu hb
    simpa [warnEvents] using this

/-- Witness for C2, at the concrete `Room.Tick` Notify handler (abort
side) and the concrete `Room.Join` Request handler (continue side). -/
theorem validateMessageType_mismatch_policy_witness :
    (processHandlerMessage tickState "Room.Tick" idSerializer [1] (.msg .request) false =
      (.error (.wrapped .errRequestOnNotify errBadRequestCode), [])) ∧
    ((processHandlerMessage joinState "Room.Join" idSerializer [1] (.msg .notify) false).2 =
      [.warnInvalidMsgType .errNotifyOnRequest, .handlerCall (.raw [1])]) := by
  constructor
  · exact ((validateMessageType_mismatch_policy tickState "Room.Tick" idSerializer [1]
      false tickHandler (by simp [tickState])).1 rfl).2
  · exact ((validateMessageType_mismatch_policy joinState "Room.Join" idSerializer [1]
      false joinHandler (by simp [joinState])).2 rfl).2 (.raw [1]) (.raw [1]) rfl rfl

/-! ## Claim C3 -/

/-- Counterexample for C3 as stated: injecting a Notify at the Request
handler `Room.Join` does not produce a `RequestOnNotify` error response
— the dispatch succeeds, the mismatch is merely logged as
`NotifyOnRequest`, and the handler IS invoked. -/
theorem notify_on_request_cex :
    processHandlerMessage joinState "Room.Join" idSerializer [1, 2] (.msg .notify) false =
      (.ok [1, 2],
       [.warnInvalidMsgType .errNotifyOnRequest, .handlerCall (.raw [1, 2])]) := by
  rfl

/-- C3 (amended): injecting a Notify message at a handler registered
with kind Request validates to `ErrNotifyOnRequest` with
`exitOnError=false`; the mismatch is only logged and the handler is
invoked (whenever argument decoding and the pre-hooks succeed). -/
theorem notify_on_request_logged_and_invoked
    (st : DispatchState) (rt : String) (ser : Serializer) (data : List UInt8)
    (remote : Bool) (h : Handler) (arg arg2 : Val)
    (hl : st.handlers rt = some h)
    (hmt : h.messageType = .request)
    (hu : unmarshalHandlerArg h ser data = .ok arg)
    (hb : executeBeforePipeline st.beforeHooks arg = (arg2, none)) :
    h.ValidateMessageType .notify = (false, some .errNotifyOnRequest) ∧
    (processHandlerMessage st rt ser data (.msg .notify) remote).2 =
      [.warnInvalidMsgType .errNotifyOnRequest, .handlerCall arg2] := by
  have hv : h.ValidateMessageType .notify = (false, some .errNotifyOnRequest) := by
    simp [Handler.ValidateMessageType, hmt]
  refine ⟨hv, ?_⟩
  have := processHandlerMessage_events_continue st rt ser data .notify remote h
    (some .errNotifyOnRequest) arg arg2 hl hv hu hb
  simpa [warnEvents] using this

/-- Witness for the amended C3 at the concrete `Room.Join` handler. -/
theorem notify_on_request_logged_and_invoked_witness :
    joinHandler.ValidateMessageType .notify = (false, some .errNotifyOnRequest) ∧
    (processHandlerMessage joinState "Room.Join" idSerializer [7] (.msg .notify) false).2 =
      [.warnInvalidMsgType .errNotifyOnRequest, .handlerCall (.raw [7])] :=
  notify_on_request_logged_and_invoked joinState "Room.Join" idSerializer [7]
    false joinHandler (.raw [7]) (.raw [7]) (by simp [joinState]) rfl rfl rfl

/-! ## Claim C10 -/

/-- C10: a mismatch whose incoming type is Response or Push yields a nil
error and `exitOnError=false`, and the dispatch is exactly the dispatch
one would get had the handler's declared kind matched the incoming
kind. -/
theorem validate_response_push_no_error
    (st : DispatchState) (rt : String) (ser : Serializer) (data : List UInt8)
    (remote : Bool) (h : Handler) (mt : MessageType)
    (hl : st.handlers rt = some h)
    (hmt : mt = .response ∨ mt = .push)
    (hne : h.messageType ≠ mt) :
    h.ValidateMessageType mt = (false, none) ∧
    processHandlerMessage st rt ser data (.msg mt) remote =
      processHandlerMessage (withHandler st rt { h with messageType := mt })
        rt ser data (.msg mt) remote := by
  have hv : h.ValidateMessageType mt = (false, none) := by
    rcases hmt with rfl | rfl <;> simp [Handler.ValidateMessageType, hne]
  have hv2 : Handler.ValidateMessageType { h with messageType := mt } mt = (false, none) := by
    simp [Handler.ValidateMessageType]
  have hl2 : (withHandler st rt { h with messageType := mt }).handlers rt =
      some { h with messageType := mt } := by
    simp [withHandler]
  refine ⟨hv, ?_⟩
  simp only [processHandlerMessage, getHandler, getMsgType, hl, hv, hl2, hv2]
  simp [unmarshalHandlerArg, withHandler]

/-- Witness for C10: a Push arriving at the Notify handler `Room.Tick`
is treated exactly as a matching kind. -/
theorem validate_response_push_no_error_witness :
    tickHandler.ValidateMessageType .push = (false, none) ∧
    processHandlerMessage tickState "Room.Tick" idSerializer [1] (.msg .push) false =
      processHandlerMessage (withHandler tickState "Room.Tick"
        { tickHandler with messageType := .push }) "Room.Tick" idSerializer [1]
        (.msg .push) false :=
  validate_response_push_no_error tickState "Room.Tick" idSerializer [1] false
    tickHandler .push (by simp [tickState]) (Or.inr rfl) (by decide)

/-! ## Claim C5 -/

/-- C5: a remote-origin Notify dispatch whose handler returns a nil
error (with post-hooks acting as the identity) produces exactly the
literal bytes `ack`, regardless of what the handler returned. -/
theorem remote_notify_ack
    (st : DispatchState) (rt : String) (ser : Serializer) (data : List UInt8)
    (h : Handler) (arg arg2 resp : Val)
    (hl : st.handlers rt = some h)
    (hu : unmarshalHandlerArg h ser data = .ok arg)
    (hb : executeBeforePipeline st.beforeHooks arg = (arg2, none))
    (hm : h.method arg2 = (resp, none))
    (ha : ∀ r e, executeAfterPipeline st.afterHooks r e = (r, e)) :
    (processHandlerMessage st rt ser data (.msg .notify) true).1 = .ok ackBytes := by
  obtain ⟨verr, hv⟩ : ∃ verr, h.ValidateMessageType .notify = (false, verr) := by
    by_cases hcase : h.messageType = .notify
    · exact ⟨none, by simp [Handler.ValidateMessageType, hcase]⟩
    · exact ⟨some .errNotifyOnRequest, by simp [Handler.ValidateMessageType, hcase]⟩
  simp only [processHandlerMessage, getHandler, getMsgType, hl, hv, hu, hb, hm]
  simp [ha, serializeReturn, SerializeOrRaw]

/-- Witness for C5 at the concrete Notify handler `Room.Tick`. -/
theorem remote_notify_ack_witness :
    (processHandlerMessage tickState "Room.Tick" idSerializer [] (.msg .notify) true).1 =
      .ok ackBytes :=
  remote_notify_ack tickState "Room.Tick" idSerializer [] tickHandler
    (.raw []) (.raw []) .nilV (by simp [tickState]) rfl rfl rfl (fun _ _ => rfl)

/-! ## Claim C6 -/

/-- C6: the post-hook chain runs even when the handler returned an
error — each hook receives the current (result, error) pair — and when
the chain ends in an error, that error (and not the handler's) is the
dispatch outcome, returned unchanged. -/
theorem after_pipeline_error_overrides
    (st : DispatchState) (rt : String) (ser : Serializer) (data : List UInt8)
    (mt : MessageType) (remote : Bool) (h : Handler) (verr : Option CoreErr)
    (arg arg2 resp r2 : Val) (herr : Option CoreErr) (e2 : CoreErr)
    (hl : st.handlers rt = some h)
    (hv : h.ValidateMessageType mt = (false, verr))
    (hu : unmarshalHandlerArg h ser data = .ok arg)
    (hb : executeBeforePipeline st.beforeHooks arg = (arg2, none))
    (hm : h.method arg2 = (resp, herr))
    (ha : executeAfterPipeline st.afterHooks
        (if remote ∧ mt = .notify then Val.raw ackBytes else resp) herr =
      (r2, some e2)) :
    (∀ (f : Val → Option CoreErr → Val × Option CoreErr) rest r e,
      executeAfterPipeline (f :: rest) r e =
        executeAfterPipeline rest (f r e).1 (f r e).2) ∧
    (processHandlerMessage st rt ser data (.msg mt) remote).1 = .error (.plain e2) := by
  constructor
  · intro f rest r e
    rcases hfe : f r e with ⟨r', e'⟩
    simp [executeAfterPipeline, hfe]
  · simp only [processHandlerMessage, getHandler, getMsgType, hl, hv, hu, hb, hm]
    simp [ha]

/-- Witness for C6: a handler that errors, followed by a post-hook that
reports its own error; the hook's error wins. -/
theorem after_pipeline_error_overrides_witness :
    (processHandlerMessage errHandlerState "Room.Err" idSerializer [3]
        (.msg .request) false).1 = .error (.plain (.user "posterr")) :=
  (after_pipeline_error_overrides errHandlerState "Room.Err" idSerializer [3]
    .request false errHandler none (.raw [3]) (.raw [3]) (.raw [3]) (.raw [3])
    (some (.user "herr")) (.user "posterr")
    (by simp [errHandlerState]) rfl rfl rfl rfl (by rfl)).2

/-! ## Claim C7 -/

/-- C7: in a pre-hook chain, the first failing hook stops the chain
(the hooks after it are irrelevant to the outcome), the handler is not
invoked, and the hook's error is the dispatch outcome, unchanged. -/
theorem before_pipeline_short_circuit
    (st : DispatchState) (rt : String) (ser : Serializer) (data : List UInt8)
    (mt : MessageType) (remote : Bool) (h : Handler) (verr : Option CoreErr)
    (arg v v' : Val) (e : CoreErr)
    (hs1 hs2 : List (Val → Val × Option CoreErr)) (f : Val → Val × Option CoreErr)
    (hl : st.handlers rt = some h)
    (hv : h.ValidateMessageType mt = (false, verr))
    (hu : unmarshalHandlerArg h ser data = .ok arg)
    (hchain : st.beforeHooks = hs1 ++ f :: hs2)
    (h1 : executeBeforePipeline hs1 arg = (v, none))
    (hf : f v = (v', some e)) :
    (∀ hs2', executeBeforePipeline (hs1 ++ f :: hs2') arg = (v', some e)) ∧
    (processHandlerMessage st rt ser data (.msg mt) remote).1 = .error (.plain e) ∧
    ∀ a, Event.handlerCall a ∉ (processHandlerMessage st rt ser data (.msg mt) remote).2 := by
  have hrun : ∀ hs2', executeBeforePipeline (hs1 ++ f :: hs2') arg = (v', some e) := by
    intro hs2'
    rw [executeBeforePipeline_append, h1]
    simp [executeBeforePipeline, hf]
  have hb : executeBeforePipeline st.beforeHooks arg = (v', some e) := by
    rw [hchain]; exact hrun hs2
  have hmain := processHandlerMessage_beforeErr st rt ser data mt remote h verr
    arg v' e hl hv hu hb
  refine ⟨hrun, by rw [hmain], ?_⟩
  intro a
  rw [hmain]
  cases verr <;> simp [warnEvents]

/-- Witness for C7: with chain `[failHook, neverHook]`, the first hook's
error is the outcome whatever the tail, and the concrete dispatch with
chain `[failHook]` surfaces it with no handler invocation. -/
theorem before_pipeline_short_circuit_witness :
    executeBeforePipeline [failHook, neverHook] (.raw [2]) =
      (.raw [2], some (.user "h1")) ∧
    (processHandlerMessage failHookState "Room.Join" idSerializer [2]
        (.msg .request) false).1 = .error (.plain (.user "h1")) ∧
    Event.handlerCall (.raw [2]) ∉
      (processHandlerMessage failHookState "Room.Join" idSerializer [2]
        (.msg .request) false).2 := by
  obtain ⟨hrun, hres, hnot⟩ := before_pipeline_short_circuit failHookState
    "Room.Join" idSerializer [2] .request false joinHandler none
    (.raw [2]) (.raw [2]) (.raw [2]) (.user "h1") [] [] failHook
    (by simp [failHookState]) rfl rfl rfl rfl rfl
  exact ⟨by simpa using hrun [neverHook], hres, hnot _⟩

/-! ## Claim C4 -/

/-- Counterexample for C4 as stated: with a binding storage whose lookup
fails, `SendKick` returns the lookup error but `BroadcastSessionBind`
returns nil (the error is discarded); and with a lookup resolving to
frontend `"B"` while no peer client for `"B"` exists,
`BroadcastSessionBind` still returns nil — a silent success. -/
theorem broadcastSessionBind_silent_cex :
    GRPCClient.SendKick ⟨some failingBindingStorage, [], "s1", "connector"⟩
      "u1" "connector" = some (.other "lookup failed") ∧
    GRPCClient.BroadcastSessionBind ⟨some failingBindingStorage, [], "s1", "connector"⟩
      "u1" = none ∧
    GRPCClient.BroadcastSessionBind ⟨some bindingStorageToB, [], "s1", "connector"⟩
      "u1" = none := by
  refine ⟨rfl, rfl, rfl⟩

/-- C4 (amended): `SendKick` resolves the frontend id via the binding
directory, returns a failing lookup's error, and returns
`ErrNoConnectionToServer` when no peer client matches the resolved id;
`BroadcastSessionBind`, by contrast, discards the lookup error and
returns nil whenever the resolved id is empty or has no matching peer
client, forwarding (and returning the forward outcome) only when a
client exists for a non-empty id.  Both fail with
`ErrNoBindingStorageModule` when no binding storage is configured. -/
theorem sendKick_broadcast_pattern (gs : GRPCClient) (uid stype : String) :
    (gs.bindingStorage = none →
      GRPCClient.SendKick gs uid stype = some .errNoBindingStorageModule ∧
      GRPCClient.BroadcastSessionBind gs uid = some .errNoBindingStorageModule) ∧
    (∀ bs fid e, gs.bindingStorage = some bs → bs uid stype = (fid, some e) →
      GRPCClient.SendKick gs uid stype = some e) ∧
    (∀ bs fid, gs.bindingStorage = some bs → bs uid stype = (fid, none) →
      assocFind gs.clientMap fid = none →
      GRPCClient.SendKick gs uid stype = some .errNoConnectionToServer) ∧
    (∀ bs fid oe, gs.bindingStorage = some bs → bs uid gs.serverType = (fid, oe) →
      assocFind gs.clientMap fid = none →
      GRPCClient.BroadcastSessionBind gs uid = none) ∧
    (∀ bs fid oe c, gs.bindingStorage = some bs → bs uid gs.serverType = (fid, oe) →
      fid ≠ "" → assocFind gs.clientMap fid = some c →
      GRPCClient.BroadcastSessionBind gs uid = c.sessionBindRemote) := by
  refine ⟨?_, ?_, ?_, ?_, ?_⟩
  · intro hb
    exact ⟨by simp [GRPCClient.SendKick, hb], by simp [GRPCClient.BroadcastSessionBind, hb]⟩
  · intro bs fid e hb hlook
    simp [GRPCClient.SendKick, hb, hlook]
  · intro bs fid hb hlook hc
    simp [GRPCClient.SendKick, hb, hlook, hc]
  · intro bs fid oe hb hlook hc
    by_cases hfid : fid = ""
    · subst hfid
      simp [GRPCClient.BroadcastSessionBind, hb, hlook]
    · simp [GRPCClient.BroadcastSessionBind, hb, hlook, hc, hfid]
  · intro bs fid oe c hb hlook hfid hc
    simp [GRPCClient.BroadcastSessionBind, hb, hlook, hc, hfid]

/-- Witness for the amended C4: the failing-lookup and missing-peer
cases, at concrete states. -/
theorem sendKick_broadcast_pattern_witness :
    GRPCClient.SendKick ⟨some failingBindingStorage, [], "s1", "connector"⟩
      "u1" "connector" = some (.other "lookup failed") ∧
    GRPCClient.SendKick ⟨some bindingStorageToB, [], "s1", "connector"⟩
      "u1" "connector" = some .errNoConnectionToServer ∧
    GRPCClient.BroadcastSessionBind ⟨some bindingStorageToB, [], "s1", "connector"⟩
      "u1" = none ∧
    GRPCClient.BroadcastSessionBind
      ⟨some bindingStorageToB, [("B", okClient)], "s1", "connector"⟩ "u1" =
        okClient.sessionBindRemote := by
  refine ⟨?_, ?_, ?_, ?_⟩
  · exact (sendKick_broadcast_pattern ⟨some failingBindingStorage, [], "s1", "connector"⟩
      "u1" "connector").2.1 failingBindingStorage "" (.other "lookup failed") rfl rfl
  · exact (sendKick_broadcast_pattern ⟨some bindingStorageToB, [], "s1", "connector"⟩
      "u1" "connector").2.2.1 bindingStorageToB "B" rfl rfl rfl
  · exact (sendKick_broadcast_pattern ⟨some bindingStorageToB, [], "s1", "connector"⟩
      "u1" "connector").2.2.2.1 bindingStorageToB "B" none rfl rfl rfl
  · exact (sendKick_broadcast_pattern
      ⟨some bindingStorageToB, [("B", okClient)], "s1", "connector"⟩
      "u1" "connector").2.2.2.2 bindingStorageToB "B" none okClient rfl rfl
      (by decide) rfl

/-! ## Claim C8 -/

/-- C8: when the transport call yields a response embedding an `Error`,
`Call` returns a typed error carrying the response error's code, message
and metadata, the code defaulting to `Unknown` when empty while the
message is preserved. -/
theorem grpc_call_embedded_error
    (gs : GRPCClient) (sid : String) (c : grpcClient) (res : PResponse)
    (re : RespError)
    (hc : assocFind gs.clientMap sid = some c)
    (hcall : c.call = .ok res)
    (hres : res.error = some re) :
    GRPCClient.Call gs sid none =
      .error (.typed (if re.code = "" then errUnknownCode else re.code)
        re.msg re.metadata) ∧
    (re.code = "" →
      GRPCClient.Call gs sid none = .error (.typed "Unknown" re.msg re.metadata)) := by
  have hmain : GRPCClient.Call gs sid none =
      .error (.typed (if re.code = "" then errUnknownCode else re.code)
        re.msg re.metadata) := by
    simp [GRPCClient.Call, hc, hcall, hres]
  refine ⟨hmain, ?_⟩
  intro hcode
  rw [hmain]
  simp [hcode, errUnknownCode]

/-- Witness for C8: a response with an empty error code surfaces as a
typed error with code `Unknown` and the message preserved. -/
theorem grpc_call_embedded_error_witness :
    GRPCClient.Call
      ⟨none, [("B", ⟨true, none, .ok ⟨[], some ⟨"", "x", []⟩⟩, none, none, none⟩)],
       "s1", "connector"⟩ "B" none =
      .error (.typed "Unknown" "x" []) :=
  (grpc_call_embedded_error
    ⟨none, [("B", ⟨true, none, .ok ⟨[], some ⟨"", "x", []⟩⟩, none, none, none⟩)],
     "s1", "connector"⟩ "B"
    ⟨true, none, .ok ⟨[], some ⟨"", "x", []⟩⟩, none, none, none⟩
    ⟨[], some ⟨"", "x", []⟩⟩ ⟨"", "x", []⟩ rfl rfl rfl).2 rfl

/-! ## Claim C9 -/

/-- C9: `SendPush` with a non-empty explicit frontend id goes straight
to the peer-client map without consulting the binding storage; with an
empty id and no binding-storage module it fails with
`ErrNoBindingStorageModule`; and a resolved id with no peer client in
the pool fails with `ErrNoConnectionToServer` (in both the explicit and
the looked-up case). -/
theorem sendPush_resolution (gs : GRPCClient) (uid fid ftype : String) :
    (fid ≠ "" →
      GRPCClient.SendPush gs uid fid ftype =
        (match assocFind gs.clientMap fid with
          | some c => c.pushToUser
          | none => some .errNoConnectionToServer)) ∧
    (fid = "" → gs.bindingStorage = none →
      GRPCClient.SendPush gs uid fid ftype = some .errNoBindingStorageModule) ∧
    (∀ bs sv, fid = "" → gs.bindingStorage = some bs → bs uid ftype = (sv, none) →
      assocFind gs.clientMap sv = none →
      GRPCClient.SendPush gs uid fid ftype = some .errNoConnectionToServer) ∧
    (∀ bs e sv, fid = "" → gs.bindingStorage = some bs → bs uid ftype = (sv, some e) →
      GRPCClient.SendPush gs uid fid ftype = some e) := by
  refine ⟨?_, ?_, ?_, ?_⟩
  · intro hfid
    simp [GRPCClient.SendPush, hfid]
  · intro hfid hb
    simp [GRPCClient.SendPush, hfid, hb]
  · intro bs sv hfid hb hlook hc
    simp [GRPCClient.SendPush, hfid, hb, hlook, hc]
  · intro bs e sv hfid hb hlook
    simp [GRPCClient.SendPush, hfid, hb, hlook]

/-- Witness for C9: explicit id bypasses the (failing) binding storage;
empty id without a module fails; a resolved id with no matching peer
fails with no-connection. -/
theorem sendPush_resolution_witness :
    GRPCClient.SendPush ⟨some failingBindingStorage, [("B", okClient)], "s1", "connector"⟩
      "u1" "B" "connector" = okClient.pushToUser ∧
    GRPCClient.SendPush ⟨none, [], "s1", "connector"⟩ "u1" "" "connector" =
      some .errNoBindingStorageModule ∧
    GRPCClient.SendPush ⟨some bindingStorageToB, [], "s1", "connector"⟩
      "u1" "" "connector" = some .errNoConnectionToServer := by
  refine ⟨?_, ?_, ?_⟩
  · have := (sendPush_resolution
      ⟨some failingBindingStorage, [("B", okClient)], "s1", "connector"⟩
      "u1" "B" "connector").1 (by decide)
    simpa [assocFind] using this
  · exact (sendPush_resolution ⟨none, [], "s1", "connector"⟩
      "u1" "" "connector").2.1 rfl rfl
  · exact (sendPush_resolution ⟨some bindingStorageToB, [], "s1", "connector"⟩
      "u1" "" "connector").2.2.1 bindingStorageToB "B" rfl rfl rfl rfl

end Pitaya
